import Mathlib

/-!
Shallow embedding of the `base64` Rust library (`src/lib.rs`).

Bytes and characters are modelled as `Nat`; strings (both the encode output
and the decode input) are modelled as `List Nat` of their byte values.
Machine-integer operations are translated explicitly:
`x >> k` becomes `x / 2 ^ k`, `x & 0x3F` becomes `x % 64`,
`x & 0xFF` becomes `x % 256`, `x << k` becomes `x * 2 ^ k`.
-/

namespace Base64Spec

/-- `Base64::ENGINE_TABLE_STANDARD`: the 64 standard-alphabet bytes
`A-Z a-z 0-9 + /`. -/
def ENGINE_TABLE_STANDARD : List Nat :=
  [65, 66, 67, 68, 69, 70, 71, 72, 73, 74, 75, 76, 77, 78, 79,
   80, 81, 82, 83, 84, 85, 86, 87, 88, 89, 90, 97, 98, 99, 100,
   101, 102, 103, 104, 105, 106, 107, 108, 109, 110, 111, 112, 113, 114, 115,
   116, 117, 118, 119, 120, 121, 122, 48, 49, 50, 51, 52, 53, 54, 55,
   56, 57, 43, 47]

/-- `Base64::ENGINE_TABLE_URL_SAFE`: the 64 URL-safe-alphabet bytes
`A-Z a-z 0-9 - _`. -/
def ENGINE_TABLE_URL_SAFE : List Nat :=
  [65, 66, 67, 68, 69, 70, 71, 72, 73, 74, 75, 76, 77, 78, 79,
   80, 81, 82, 83, 84, 85, 86, 87, 88, 89, 90, 97, 98, 99, 100,
   101, 102, 103, 104, 105, 106, 107, 108, 109, 110, 111, 112, 113, 114, 115,
   116, 117, 118, 119, 120, 121, 122, 48, 49, 50, 51, 52, 53, 54, 55,
   56, 57, 45, 95]

/-- `struct Base64Engine { table: &'static [u8; 64], padding: char }`. -/
structure Base64Engine where
  table : List Nat
  padding : Nat
  deriving Repr, DecidableEq

/-- `Base64::standard()`: standard alphabet with `'='` (byte 61) padding. -/
def Base64.standard : Base64Engine :=
  { table := ENGINE_TABLE_STANDARD, padding := 61 }

/-- `Base64::url_safe()`: URL-safe alphabet with `'='` (byte 61) padding. -/
def Base64.url_safe : Base64Engine :=
  { table := ENGINE_TABLE_URL_SAFE, padding := 61 }

/-- `Base64Engine::ENCODE_RSH = [18, 12, 6, 0]`. -/
def ENCODE_RSH : List Nat := [18, 12, 6, 0]

/-- `Base64Engine::DECODE_RSH = [16, 8, 0]`. -/
def DECODE_RSH : List Nat := [16, 8, 0]

/-- `Base64Engine::merge_encode_bytes`:
`(first << 16) + (second << 8) + third` on `u32`; the inputs are bytes,
so the sum is below `2 ^ 24` and never wraps. -/
def mergeEncodeBytes (first second third : Nat) : Nat :=
  first * 2 ^ 16 + second * 2 ^ 8 + third

/-- The character list emitted for one full 3-byte group in
`Base64Engine::encode`: each of the four shifts yields
`(merged >> rsh) & ENCODE_MASK`, indices are filtered by `*byte > 0`,
and survivors are looked up in the table. -/
def groupChars (e : Base64Engine) (merged : Nat) : List Nat :=
  ((ENCODE_RSH.map (fun rsh => merged / 2 ^ rsh % 64)).filter
      (fun b => b > 0)).map (fun b => e.table.getD b 0)

/-- The character list emitted for the trailing partial group in
`Base64Engine::encode`: each of the four 6-bit indices maps to the padding
character when it is `0`, and to its table entry otherwise. -/
def restChars (e : Base64Engine) (merged : Nat) : List Nat :=
  ENCODE_RSH.map (fun rsh =>
    match merged / 2 ^ rsh % 64 with
    | 0 => e.padding
    | b => e.table.getD b 0)

/-- `Base64Engine::encode`, fused: `bytes.chunks_exact(3)` walks the full
3-byte groups in order (first recursion case), and the `bytes.len() % 3`
trailing bytes are handled by the final `if remaining_bytes != 0` block
(remaining cases; the `if` is skipped when the remainder is empty). -/
def encodeLoop (e : Base64Engine) : List Nat → List Nat
  | first :: second :: third :: rest =>
      groupChars e (mergeEncodeBytes first second third) ++ encodeLoop e rest
  | [first, second] => restChars e (mergeEncodeBytes first second 0)
  | [first] => restChars e (mergeEncodeBytes first 0 0)
  | [] => []

/-- `Base64Engine::encode(bytes) -> String`, as byte values. -/
def Base64Engine.encode (e : Base64Engine) (bytes : List Nat) : List Nat :=
  encodeLoop e bytes

/-- The index resolution in `Base64Engine::decode`:
`self.table.iter().position(|b| b == byte)` then `unwrap_or_default()`,
so a byte absent from the table silently resolves to `0`. -/
def decodeIdx (e : Base64Engine) (byte : Nat) : Nat :=
  (e.table.findIdx? (fun b => b == byte)).getD 0

/-- The fold in `Base64Engine::decode` over one 4-character window:
`merged + (idx << (6 * (3 - i)))` for `i = 0, 1, 2, 3`. -/
def mergeDecode (e : Base64Engine) (c0 c1 c2 c3 : Nat) : Nat :=
  decodeIdx e c0 * 2 ^ 18 + decodeIdx e c1 * 2 ^ 12 +
    decodeIdx e c2 * 2 ^ 6 + decodeIdx e c3

/-- The bytes pushed for one decoded window: each of `DECODE_RSH` yields
`(merged >> rsh) & DECODE_MASK`, and `take_while(|byte| *byte > 0)` stops
at the first zero byte. -/
def decodeGroupBytes (merged : Nat) : List Nat :=
  (DECODE_RSH.map (fun rsh => merged / 2 ^ rsh % 256)).takeWhile
    (fun b => b > 0)

/-- The `encoded.chunks_exact(4)` loop of `Base64Engine::decode`: complete
4-byte windows are processed in order and any trailing remainder of fewer
than 4 bytes is never visited. -/
def decodeLoop (e : Base64Engine) : List Nat → List Nat
  | c0 :: c1 :: c2 :: c3 :: rest =>
      decodeGroupBytes (mergeDecode e c0 c1 c2 c3) ++ decodeLoop e rest
  | _ => []

/-- `Base64Engine::decode(encoded) -> Result<Vec<u8>, String>`: the body
builds the decoded vector and unconditionally returns `Ok(decoded)`. -/
def Base64Engine.decode (e : Base64Engine) (encoded : List Nat) :
    Except String (List Nat) :=
  Except.ok (decodeLoop e encoded)

instance {ε α : Type} [DecidableEq ε] [DecidableEq α] :
    DecidableEq (Except ε α) := fun x y =>
  match x, y with
  | .error a, .error b =>
      if h : a = b then .isTrue (congrArg Except.error h)
      else .isFalse fun hc => h (Except.error.inj hc)
  | .ok a, .ok b =>
      if h : a = b then .isTrue (congrArg Except.ok h)
      else .isFalse fun hc => h (Except.ok.inj hc)
  | .error _, .ok _ => .isFalse fun hc => Except.noConfusion hc
  | .ok _, .error _ => .isFalse fun hc => Except.noConfusion hc

/-! ### Theorems about the claims -/

/-- C8: for both configured alphabet tables (standard and URL-safe), all 64
entries are ASCII and mutually distinct, and the padding character `'='`
(byte 61) does not appear in either alphabet. -/
theorem c8_alphabet_tables_valid :
    (ENGINE_TABLE_STANDARD.length = 64 ∧ ENGINE_TABLE_STANDARD.Nodup ∧
      (∀ c ∈ ENGINE_TABLE_STANDARD, c < 128) ∧
      Base64.standard.padding ∉ ENGINE_TABLE_STANDARD) ∧
    (ENGINE_TABLE_URL_SAFE.length = 64 ∧ ENGINE_TABLE_URL_SAFE.Nodup ∧
      (∀ c ∈ ENGINE_TABLE_URL_SAFE, c < 128) ∧
      Base64.url_safe.padding ∉ ENGINE_TABLE_URL_SAFE) := by
  decide

/-- Witness for C8: instantiating the ASCII bound at the first entry of each
table. -/
theorem c8_alphabet_tables_valid_witness : (65 : Nat) < 128 ∧ (95 : Nat) < 128 :=
  ⟨c8_alphabet_tables_valid.1.2.2.1 65 (by decide),
   c8_alphabet_tables_valid.2.2.2.1 95 (by decide)⟩

/-- C1 evaluation: the round-trip fails on the single byte `[0]`. For both
configurations `encode [0]` is `"===="` and decoding it yields `Ok []`, not
`Ok [0]`. -/
theorem c1_roundtrip_fails_on_zero_byte :
    Base64.standard.encode [0] = [61, 61, 61, 61] ∧
    Base64.standard.decode (Base64.standard.encode [0]) = Except.ok [] ∧
    Base64.url_safe.decode (Base64.url_safe.encode [0]) = Except.ok [] ∧
    (Except.ok [] : Except String (List Nat)) ≠ Except.ok [0] := by
  decide

/-- C2 evaluation: the full group `[0, 0, 0]` encodes to the empty string,
not to `"AAAA"` (`[65, 65, 65, 65]`): the zero-valued 6-bit indices are
filtered out by `filter(|byte| *byte > 0)`. -/
theorem c2_zero_group_is_skipped :
    Base64.standard.encode [0, 0, 0] = [] ∧
    Base64.standard.encode [0, 0, 0] ≠ [65, 65, 65, 65] ∧
    Base64.url_safe.encode [0, 0, 0] = [] := by
  decide

/-- C3 evaluation: the length law fails at `[0, 0, 0]`: the encoding is
empty, while `4 * ceil(3 / 3) = 4`. -/
theorem c3_length_law_fails :
    (Base64.standard.encode [0, 0, 0]).length = 0 ∧
    (Base64.standard.encode [0, 0, 0]).length ≠
      4 * ((([0, 0, 0] : List Nat).length + 2) / 3) := by
  decide

/-- C4 evaluation: decoding `"A!=="` (`[65, 33, 61, 61]`), whose byte `'!'`
(33) is neither in the standard alphabet nor the padding symbol, returns
`Ok []` instead of failing. -/
theorem c4_invalid_symbol_accepted :
    (33 : Nat) ∉ Base64.standard.table ∧
    (33 : Nat) ≠ Base64.standard.padding ∧
    Base64.standard.decode [65, 33, 61, 61] = Except.ok [] := by
  decide

/-- C5 evaluation: bytes kept are decided by `take_while(|byte| *byte > 0)`,
not by the trailing-padding count. The pad-free group `"AAAA"` should keep
3 bytes (`[0, 0, 0]`) but decodes to `Ok []`, and `"QQBC"` (the encoding of
`[65, 0, 66]`) should keep 3 bytes but decodes to `Ok [65]`: the legitimate
zero data byte truncates the output. -/
theorem c5_zero_byte_truncates_output :
    (61 : Nat) ∉ ([65, 65, 65, 65] : List Nat) ∧
    Base64.standard.decode [65, 65, 65, 65] = Except.ok [] ∧
    Base64.standard.encode [65, 0, 66] = [81, 81, 66, 67] ∧
    Base64.standard.decode [81, 81, 66, 67] = Except.ok [65] := by
  decide

/-- C6 evaluation: for the one-byte input `[0]` the encoding is `"===="`:
four padding characters instead of the claimed `(3 - 1 % 3) % 3 = 2`, and
padding occupies the first two positions as well as the last two. -/
theorem c6_padding_count_wrong :
    Base64.standard.encode [0] = [61, 61, 61, 61] ∧
    (3 - ([0] : List Nat).length % 3) % 3 = 2 ∧
    Base64.standard.encode [4] = [66, 61, 61, 61] := by
  decide

/-- C9: decode returns a success result on every input: the error branch is
unreachable, and any byte not found in the alphabet table (including the
padding symbol) resolves to index 0 via `unwrap_or_default()`. -/
theorem c9_decode_never_errors (e : Base64Engine) :
    (∀ s : List Nat, (e.decode s).isOk = true) ∧
    (∀ b : Nat, b ∉ e.table → decodeIdx e b = 0) := by
  constructor
  · intro s
    rfl
  · intro b hb
    unfold decodeIdx
    have hnone : e.table.findIdx? (fun x => x == b) = none := by
      rw [List.findIdx?_eq_none_iff]
      intro x hx
      simp only [beq_eq_false_iff_ne, ne_eq]
      intro hxb
      exact hb (hxb ▸ hx)
    rw [hnone]
    rfl

/-- Witness for C9: the padding symbol `'='` (61) is not in the standard
table, so it resolves to index 0, and decoding `"A!=="` succeeds. -/
theorem c9_decode_never_errors_witness :
    (Base64.standard.decode [65, 33, 61, 61]).isOk = true ∧
    decodeIdx Base64.standard 61 = 0 :=
  ⟨(c9_decode_never_errors Base64.standard).1 [65, 33, 61, 61],
   (c9_decode_never_errors Base64.standard).2 61 (by decide)⟩

/-- `decodeLoop` only ever looks at the complete leading 4-byte windows:
truncating the input to a multiple of 4 does not change the result. -/
theorem decodeLoop_take (e : Base64Engine) (s : List Nat) :
    decodeLoop e s = decodeLoop e (s.take (s.length - s.length % 4)) := by
  induction s using decodeLoop.induct e with
  | case1 c0 c1 c2 c3 rest ih =>
      have htake : (c0 :: c1 :: c2 :: c3 :: rest).length -
          (c0 :: c1 :: c2 :: c3 :: rest).length % 4
          = (rest.length - rest.length % 4) + 4 := by
        have := Nat.mod_le rest.length 4
        simp only [List.length_cons]
        omega
      rw [htake]
      simp only [List.take_succ_cons, decodeLoop, List.append_cancel_left_eq]
      exact ih
  | case2 s h =>
      have hnil : decodeLoop e s = [] := by
        match s, h with
        | [], _ => rfl
        | [a], _ => rfl
        | [a, b], _ => rfl
        | [a, b, c], _ => rfl
        | a :: b :: c :: d :: rest, h => exact absurd rfl (h a b c d rest)
      have hlt : s.length < 4 := by
        match s, h with
        | [], _ => simp
        | [a], _ => simp
        | [a, b], _ => simp
        | [a, b, c], _ => simp
        | a :: b :: c :: d :: rest, h => exact absurd rfl (h a b c d rest)
      have hz : s.length - s.length % 4 = 0 := by omega
      rw [hz, List.take_zero, hnil]
      rfl

/-- C7: for every decode input whose length is not a multiple of 4, decode
silently ignores the trailing partial group: the result equals decoding the
complete leading 4-character groups, and it is a success, not a length
error. -/
theorem c7_decode_ignores_trailing_partial (e : Base64Engine) (s : List Nat)
    (h : s.length % 4 ≠ 0) :
    e.decode s = e.decode (s.take (s.length - s.length % 4)) ∧
    (e.decode s).isOk = true := by
  refine ⟨?_, rfl⟩
  unfold Base64Engine.decode
  rw [← decodeLoop_take]

/-- Witness for C7: the 5-byte input `"AAAAB"` decodes exactly as its
leading 4-byte group does, successfully. -/
theorem c7_decode_ignores_trailing_partial_witness :
    ([65, 65, 65, 65, 66] : List Nat).length % 4 ≠ 0 ∧
    (Base64.standard.decode [65, 65, 65, 65, 66] =
      Base64.standard.decode (([65, 65, 65, 65, 66] : List Nat).take
        (([65, 65, 65, 65, 66] : List Nat).length -
          ([65, 65, 65, 65, 66] : List Nat).length % 4)) ∧
      (Base64.standard.decode [65, 65, 65, 65, 66]).isOk = true) :=
  ⟨by decide,
   c7_decode_ignores_trailing_partial Base64.standard [65, 65, 65, 65, 66]
     (by decide)⟩

/-- A full-group character is the table entry of a 6-bit index that survived
the `> 0` filter, so under the stated table property it is never 65. -/
theorem groupChars_not_mem (e : Base64Engine)
    (ht : ∀ b : Nat, b < 64 → 0 < b → e.table.getD b 0 ≠ 65) (merged : Nat) :
    (65 : Nat) ∉ groupChars e merged := by
  intro hmem
  unfold groupChars at hmem
  rw [List.mem_map] at hmem
  obtain ⟨b, hb, hb65⟩ := hmem
  rw [List.mem_filter] at hb
  obtain ⟨hbm, hbpos⟩ := hb
  rw [List.mem_map] at hbm
  obtain ⟨rsh, _, hrsh⟩ := hbm
  have hb64 : b < 64 := by
    rw [← hrsh]
    exact Nat.mod_lt _ (by omega)
  have hbpos' : 0 < b := by
    simpa using hbpos
  exact ht b hb64 hbpos' hb65

/-- A partial-group character is either the padding symbol (for index 0) or
the table entry of a nonzero 6-bit index, so under the stated properties it
is never 65. -/
theorem restChars_not_mem (e : Base64Engine)
    (ht : ∀ b : Nat, b < 64 → 0 < b → e.table.getD b 0 ≠ 65)
    (hp : e.padding ≠ 65) (merged : Nat) :
    (65 : Nat) ∉ restChars e merged := by
  intro hmem
  unfold restChars at hmem
  rw [List.mem_map] at hmem
  obtain ⟨rsh, _, hrsh⟩ := hmem
  revert hrsh
  rcases hidx : merged / 2 ^ rsh % 64 with _ | b
  · simpa using hp
  · have hb64 : b + 1 < 64 := by
      rw [← hidx]
      exact Nat.mod_lt _ (by omega)
    simpa using ht (b + 1) hb64 (Nat.succ_pos b)

/-- No character emitted by the encode loop is 65 when the table has no
entry 65 at a positive index and the padding is not 65. -/
theorem encodeLoop_not_mem (e : Base64Engine)
    (ht : ∀ b : Nat, b < 64 → 0 < b → e.table.getD b 0 ≠ 65)
    (hp : e.padding ≠ 65) (B : List Nat) :
    (65 : Nat) ∉ encodeLoop e B := by
  induction B using encodeLoop.induct e with
  | case1 first second third rest ih =>
      rw [encodeLoop, List.mem_append]
      rintro (hg | hr)
      · exact groupChars_not_mem e ht _ hg
      · exact ih hr
  | case2 first second =>
      exact restChars_not_mem e ht hp _
  | case3 first =>
      exact restChars_not_mem e ht hp _
  | case4 =>
      simp [encodeLoop]

/-- C10: for every input byte sequence, the encode output never contains the
alphabet's first character (`'A'`, byte 65, in both configurations): a
zero-valued index is dropped in full groups and rendered as padding in the
final partial group, and every other index maps to a later table entry. -/
theorem c10_encode_never_emits_first_char (B : List Nat) :
    (65 : Nat) ∉ Base64.standard.encode B ∧
    (65 : Nat) ∉ Base64.url_safe.encode B :=
  ⟨encodeLoop_not_mem Base64.standard (by decide) (by decide) B,
   encodeLoop_not_mem Base64.url_safe (by decide) (by decide) B⟩

end Base64Spec
